import Mathlib

/-!
Shallow embedding of the vector-overlay core of the maptalks.js repository:
the geometry store (`src/layer/OverlayLayer.js`), the text-marker style
resolution and layout cache (`TextMarkerSymbolizer`), and the image-marker
draw routine (`src/renderer/geometry/symbolizers/ImageMarkerSymbolizer.js`).
JavaScript numbers are modelled as `Int`/`ℚ`, nullable values as `Option`,
the JS object used as the id map as an association list with unique keys,
and thrown exceptions as an `Option` error component of the result.
-/

namespace Maptalks

/-- A geometry as far as the overlay layer observes it: an optional external
id (`getId()`, `none` models null/undefined), a stacking key (`getZIndex()`),
and, for `identify`, the outcome of the per-geometry tests at the fixed
query point: visibility, presence of a painter, whether it is a `LineString`
carrying an arrow style, whether the painter's container extent exists and
contains the container point, and the `_containsPoint` result. -/
structure Geometry where
  extId : Option String := none
  zIndex : Int := 0
  visible : Bool := true
  hasPainter : Bool := true
  lineArrow : Bool := false
  extentOk : Bool := true
  containsPt : Bool := false
  deriving DecidableEq, Repr

/-- A geometry bound to a layer: the layer has assigned it an internal id
(`_setInternalId`). -/
structure BoundGeo where
  geo : Geometry
  internalId : Nat
  deriving DecidableEq, Repr

/-- Lookup in the JS object `_geoMap` (`this._geoMap[id]`). -/
def mapLookup : List (String × BoundGeo) → String → Option BoundGeo
  | [], _ => none
  | (k', v) :: rest, k => if k' = k then some v else mapLookup rest k

/-- Assignment `this._geoMap[id] = geo`: overwrite the key if present,
otherwise append it (JS object keys are unique). -/
def mapInsert : List (String × BoundGeo) → String → BoundGeo → List (String × BoundGeo)
  | [], k, v => [(k, v)]
  | (k', v') :: rest, k, v =>
    if k' = k then (k, v) :: rest else (k', v') :: mapInsert rest k v

/-- `delete this._geoMap[id]`: drop the entry under the key (keys are
unique, so dropping the first occurrence models the JS delete). -/
def mapDelete : List (String × BoundGeo) → String → List (String × BoundGeo)
  | [], _ => []
  | (k', v) :: rest, k => if k' = k then rest else (k', v) :: mapDelete rest k

/-- The mutable state of an `OverlayLayer`: the ordered sequence `_geoList`,
the id map `_geoMap`, and the counter behind internal id assignment.

Modelled from the spec: `UID()` from `core/util` (not under `src/`) issues
strictly increasing internal ids; modelled as a counter threaded through
the store state, as the spec requires internal ids to be "assigned at add
time, strictly increasing". -/
structure LayerState where
  geoList : List BoundGeo := []
  geoMap : List (String × BoundGeo) := []
  uid : Nat := 0
  deriving DecidableEq, Repr

/-- The exceptions `addGeometry` throws: an invalid (null/undefined) entry
at an index, or a duplicate external id at an index. -/
inductive AddError where
  | invalidGeometry (index : Nat)
  | duplicateId (id : String) (index : Nat)
  deriving DecidableEq, Repr

/-- `getGeometryById` (OverlayLayer.js:36-44): null for a nil or
empty-string id, otherwise the id-map entry, null when absent. `none` as
the argument models both `null` and `undefined` ids. -/
def getGeometryById (st : LayerState) (id : Option String) : Option BoundGeo :=
  match id with
  | none => none
  | some s => if s = "" then none else mapLookup st.geoMap s

/-- The comparator `_compare` (OverlayLayer.js:407-412): difference of
zIndexes, ties broken by difference of internal ids. -/
def compareGeo (a b : BoundGeo) : Int :=
  if a.geo.zIndex = b.geo.zIndex then (a.internalId : Int) - (b.internalId : Int)
  else a.geo.zIndex - b.geo.zIndex

/-- The ordering induced by `_compare` being ≤ 0: zIndex ascending, ties by
internal id ascending. -/
def geoLE (a b : BoundGeo) : Prop :=
  a.geo.zIndex < b.geo.zIndex ∨ (a.geo.zIndex = b.geo.zIndex ∧ a.internalId ≤ b.internalId)

/-- Strict version of `geoLE`; on a list with pairwise distinct internal
ids the sorted order is pairwise strict. -/
def geoLT (a b : BoundGeo) : Prop :=
  a.geo.zIndex < b.geo.zIndex ∨ (a.geo.zIndex = b.geo.zIndex ∧ a.internalId < b.internalId)

instance : DecidableRel geoLE := fun a b => by unfold geoLE; infer_instance

instance : DecidableRel geoLT := fun a b => by unfold geoLT; infer_instance

instance : IsTotal BoundGeo geoLE :=
  ⟨fun a b => by unfold geoLE; omega⟩

instance : IsTrans BoundGeo geoLE :=
  ⟨fun a b c hab hbc => by unfold geoLE at *; omega⟩

/-- `_sortGeometries` (OverlayLayer.js:401-405): sort the list with the
`_compare` comparator. The comparator is a total preorder and is a strict
total order on any list with distinct internal ids (the store invariant),
so every comparison sort computes the same result; we embed it as an
insertion sort. -/
def sortGeometries (l : List BoundGeo) : List BoundGeo := l.insertionSort geoLE

/-- The per-entry loop of `addGeometry` (OverlayLayer.js:183-236), with the
JS exception modelled as an `Option AddError` alongside the state reached
when the exception is thrown (a JS `throw` does not roll back earlier
mutations). `none` entries model null/undefined batch members; `i` is the
running index used in the error messages. Per entry: a null entry throws;
an entry with a non-nil external id throws on collision and is otherwise
registered in the id map; the entry receives the next internal id and is
pushed onto `_geoList` (event firing and the fitView accumulation have no
effect on the store state and are omitted). -/
def addGeometryLoop (st : LayerState) (gs : List (Option Geometry)) (i : Nat) :
    LayerState × Option AddError :=
  match gs with
  | [] => (st, none)
  | none :: _ => (st, some (.invalidGeometry i))
  | some g :: rest =>
    match g.extId with
    | some gid =>
      if (mapLookup st.geoMap gid).isSome then
        (st, some (.duplicateId gid i))
      else
        addGeometryLoop
          { st with
            geoMap := mapInsert st.geoMap gid ⟨g, st.uid⟩,
            geoList := st.geoList ++ [⟨g, st.uid⟩],
            uid := st.uid + 1 } rest (i + 1)
    | none =>
        addGeometryLoop
          { st with
            geoList := st.geoList ++ [⟨g, st.uid⟩],
            uid := st.uid + 1 } rest (i + 1)

/-- `addGeometry` (OverlayLayer.js:160-260) on a normalized batch: an empty
batch returns early (`isArrayHasData`); otherwise the entries are processed
in order and, when no exception was thrown, `_sortGeometries` re-sorts the
sequence. The GeoJSON/argument-normalization branches deal with call-shape
only and are outside the store model. -/
def addGeometry (st : LayerState) (gs : List (Option Geometry)) :
    LayerState × Option AddError :=
  if gs.isEmpty then (st, none)
  else
    match addGeometryLoop st gs 0 with
    | (st', none) => ({ st' with geoList := sortGeometries st'.geoList }, none)
    | (st', some e) => (st', some e)

/-- `forEach` (OverlayLayer.js:124-134): the callback may mutate the store,
so it is modelled as a state transformer; the loop runs over the slice
`copyOnWrite` taken before the first call. The returned list records the
elements visited, in visiting order. -/
def forEachLoop (fn : BoundGeo → Nat → LayerState → LayerState) :
    List BoundGeo → Nat → LayerState → LayerState × List BoundGeo
  | [], _, st => (st, [])
  | g :: rest, i, st =>
    let st' := fn g i st
    let result := forEachLoop fn rest (i + 1) st'
    (result.1, g :: result.2)

/-- `forEach` entry point: snapshot `_geoList`, then iterate the snapshot. -/
def forEach (st : LayerState) (fn : BoundGeo → Nat → LayerState → LayerState) :
    LayerState × List BoundGeo :=
  forEachLoop fn st.geoList 0 st

/-- The loop body of `identify` (OverlayLayer.js:363-392), running over the
already-reversed `_geoList` (the source iterates `i` downwards). `k` is the
number of hits so far (`hits.length` before this iteration); `count = 0`
models an absent/zero `options.count` (falsy in the source). Returns the
hits pushed by the remaining iterations together with the list of
geometries the `filter` predicate was invoked on (the predicate is
evaluated only when `_containsPoint` succeeded, by `&&` short-circuit). -/
def identifyLoop (filter : Option (BoundGeo → Bool)) (count : Nat) :
    List BoundGeo → Nat → List BoundGeo × List BoundGeo
  | [], _ => ([], [])
  | g :: rest, k =>
    if ¬(g.geo.visible && g.geo.hasPainter) then identifyLoop filter count rest k
    else if ¬g.geo.lineArrow && ¬g.geo.extentOk then identifyLoop filter count rest k
    else if g.geo.containsPt then
      match filter with
      | some f =>
        if f g then
          if count ≠ 0 ∧ count ≤ k + 1 then ([g], [g])
          else
            let result := identifyLoop filter count rest (k + 1)
            (g :: result.1, g :: result.2)
        else
          let result := identifyLoop filter count rest k
          (result.1, g :: result.2)
      | none =>
        if count ≠ 0 ∧ count ≤ k + 1 then ([g], [])
        else
          let result := identifyLoop filter count rest (k + 1)
          (g :: result.1, result.2)
    else identifyLoop filter count rest k

/-- `identify` (OverlayLayer.js:363-392): walk `_geoList` topmost-first and
collect hits. -/
def identify (st : LayerState) (filter : Option (BoundGeo → Bool)) (count : Nat) :
    List BoundGeo :=
  (identifyLoop filter count st.geoList.reverse 0).1

/-- The geometries the `identify` filter predicate was invoked on. -/
def identifyFilterCalls (st : LayerState) (filter : Option (BoundGeo → Bool))
    (count : Nat) : List BoundGeo :=
  (identifyLoop filter count st.geoList.reverse 0).2

/-- The condition under which `identify` pushes a geometry: visible, has a
painter, passes the container-extent pre-filter (skipped for a LineString
with arrows), contains the point, and passes the filter when given. -/
def identifyMatches (filter : Option (BoundGeo → Bool)) (g : BoundGeo) : Bool :=
  g.geo.visible && g.geo.hasPainter && (g.geo.lineArrow || g.geo.extentOk) &&
    g.geo.containsPt && (match filter with | some f => f g | none => true)

/-- The `while (low <= high)` loop of `_findInList` (OverlayLayer.js:414-434)
with explicit fuel; each iteration shrinks `high - low`, so fuel
`length + 1` is never exhausted on the call below. -/
def findInListLoop (l : List BoundGeo) (geo : BoundGeo) :
    Nat → Int → Int → Int
  | 0, _, _ => -1
  | fuel + 1, low, high =>
    if low ≤ high then
      let middle := (low + high) / 2
      match l.get? middle.toNat with
      | none => -1
      | some m =>
        if m = geo then middle
        else if compareGeo m geo > 0 then findInListLoop l geo fuel low (middle - 1)
        else findInListLoop l geo fuel (middle + 1) high
    else -1

/-- `_findInList` (OverlayLayer.js:414-434): binary search for the geometry
(reference equality in the source; values with distinct internal ids in the
model) over the sorted `_geoList`. -/
def findInList (st : LayerState) (geo : BoundGeo) : Int :=
  let len := st.geoList.length
  if len = 0 then -1
  else findInListLoop st.geoList geo (len + 1) 0 ((len : Int) - 1)

/-- `Array.prototype.splice(idx, 1)`. -/
def spliceAt (l : List BoundGeo) (idx : Nat) : List BoundGeo :=
  l.take idx ++ l.drop (idx + 1)

/-- `onRemoveGeometry` (OverlayLayer.js:326-347). `clearing` models the
`_clearing` flag and `boundToThis` the `this !== geometry.getLayer()`
check; a bound geometry always carries an internal id in this model, so
the `isNil(internalId)` early return cannot fire. The id-map entry is
dropped when the geometry declares an id, then the geometry is spliced out
of `_geoList` when the binary search locates it. -/
def onRemoveGeometry (st : LayerState) (geo : BoundGeo)
    (clearing boundToThis : Bool) : LayerState :=
  if clearing then st
  else if ¬boundToThis then st
  else
    let st1 :=
      match geo.geo.extId with
      | some gid => { st with geoMap := mapDelete st.geoMap gid }
      | none => st
    let idx := findInList st1 geo
    if 0 ≤ idx then { st1 with geoList := spliceAt st1.geoList idx.toNat } else st1

/-- Binding the internal ids: the list of bound geometries produced by a
successful `addGeometry` run, internal ids issued consecutively from
`uid` in insertion order. -/
def bindAll (uid : Nat) : List Geometry → List BoundGeo
  | [] => []
  | g :: rest => ⟨g, uid⟩ :: bindAll (uid + 1) rest

/-- Successive `addGeometry` calls starting from a given store, stopping at
the first thrown exception. -/
def runAddsFrom (st : LayerState) (batches : List (List Geometry)) :
    LayerState × Option AddError :=
  match batches with
  | [] => (st, none)
  | b :: rest =>
    match addGeometry st (b.map some) with
    | (st', none) => runAddsFrom st' rest
    | (st', some e) => (st', some e)

/-- Successive `addGeometry` calls on a freshly constructed layer. -/
def runAdds (batches : List (List Geometry)) : LayerState × Option AddError :=
  runAddsFrom {} batches

/-! ### Helper lemmas about the id map -/

lemma mapLookup_eq_none_of_not_mem {m : List (String × BoundGeo)} {k : String}
    (h : k ∉ m.map Prod.fst) : mapLookup m k = none := by
  induction m with
  | nil => rfl
  | cons p rest ih =>
    simp only [List.map_cons, List.mem_cons] at h
    push_neg at h
    have hne : p.1 ≠ k := fun hh => h.1 hh.symm
    simp [mapLookup, hne, ih h.2]

lemma mapLookup_mapDelete_self {m : List (String × BoundGeo)} {k : String}
    (h : (m.map Prod.fst).Nodup) : mapLookup (mapDelete m k) k = none := by
  induction m with
  | nil => rfl
  | cons p rest ih =>
    simp only [List.map_cons, List.nodup_cons] at h
    by_cases hk : p.1 = k
    · simpa [mapDelete, hk] using mapLookup_eq_none_of_not_mem (hk ▸ h.1)
    · simpa [mapDelete, mapLookup, hk] using ih h.2

/-! ### Theorems -/

/-- C8: `forEach` iterates a snapshot of `_geoList` taken when it is
called; whatever state transformations the callback applies (adds,
removals, clears), the sequence of elements visited, in order, is exactly
the geometry list at call time. -/
theorem forEach_iterates_snapshot (st : LayerState)
    (fn : BoundGeo → Nat → LayerState → LayerState) :
    (forEach st fn).2 = st.geoList := by
  suffices h : ∀ (l : List BoundGeo) (i : Nat) (s : LayerState),
      (forEachLoop fn l i s).2 = l by
    exact h st.geoList 0 st
  intro l
  induction l with
  | nil => intro i s; rfl
  | cons g rest ih => intro i s; simp [forEachLoop, ih]

/-- C10: `getGeometryById` returns null for a null/undefined id (`none`
models both) and for the empty-string id — even when an entry sits under
the empty-string key — and returns null rather than raising when no
geometry is registered under the requested id. -/
theorem getGeometryById_total_lookup :
    (∀ st : LayerState, getGeometryById st none = none) ∧
    (∀ st : LayerState, getGeometryById st (some "") = none) ∧
    (∀ (st : LayerState) (s : String), mapLookup st.geoMap s = none →
      getGeometryById st (some s) = none) := by
  refine ⟨fun st => rfl, fun st => rfl, fun st s h => ?_⟩
  by_cases hs : s = "" <;> simp [getGeometryById, hs, h]

/-- Witness for `getGeometryById_total_lookup`: an empty store, and a store
holding a geometry under the empty-string key, both looked up concretely. -/
theorem getGeometryById_total_lookup_witness :
    getGeometryById {} none = none ∧
    getGeometryById { geoMap := [("", ⟨{}, 0⟩)] } (some "") = none ∧
    getGeometryById {} (some "a") = none := by
  exact ⟨getGeometryById_total_lookup.1 {},
    getGeometryById_total_lookup.2.1 { geoMap := [("", ⟨{}, 0⟩)] },
    getGeometryById_total_lookup.2.2 {} "a" (by decide)⟩

/-- C5: removing a bound geometry drops its external id from the id map:
`getGeometryById` on that id then returns null, and `addGeometry` of a new
geometry carrying the same external id succeeds with no duplicate-id
error. The id-map keys are pairwise distinct (the store invariant the JS
object guarantees by construction). -/
theorem remove_frees_external_id (st : LayerState) (g : BoundGeo) (gid : String)
    (hid : g.geo.extId = some gid)
    (hnodup : (st.geoMap.map Prod.fst).Nodup) :
    getGeometryById (onRemoveGeometry st g false true) (some gid) = none ∧
    ∀ g' : Geometry, g'.extId = some gid →
      (addGeometry (onRemoveGeometry st g false true) [some g']).2 = none := by
  have hmap : (onRemoveGeometry st g false true).geoMap = mapDelete st.geoMap gid := by
    simp [onRemoveGeometry, hid, apply_ite LayerState.geoMap]
  have hnone : mapLookup (onRemoveGeometry st g false true).geoMap gid = none := by
    rw [hmap]; exact mapLookup_mapDelete_self hnodup
  constructor
  · by_cases hgid : gid = "" <;> simp [getGeometryById, hgid, hnone]
  · intro g' hg'
    simp [addGeometry, addGeometryLoop, hg', hnone]

/-- Witness for `remove_frees_external_id`: a one-geometry store from which
the geometry is removed and a fresh geometry with the same id is added. -/
theorem remove_frees_external_id_witness :
    ({ extId := some "x" } : Geometry).extId = some "x" ∧
    ((LayerState.mk [⟨{ extId := some "x" }, 0⟩] [("x", ⟨{ extId := some "x" }, 0⟩)] 1).geoMap.map
      Prod.fst).Nodup ∧
    getGeometryById
      (onRemoveGeometry
        (LayerState.mk [⟨{ extId := some "x" }, 0⟩] [("x", ⟨{ extId := some "x" }, 0⟩)] 1)
        ⟨{ extId := some "x" }, 0⟩ false true) (some "x") = none := by
  refine ⟨rfl, by decide, ?_⟩
  exact (remove_frees_external_id
    (LayerState.mk [⟨{ extId := some "x" }, 0⟩] [("x", ⟨{ extId := some "x" }, 0⟩)] 1)
    ⟨{ extId := some "x" }, 0⟩ "x" rfl (by decide)).1

/-! ### identify -/

lemma identifyLoop_fst_cons (filter : Option (BoundGeo → Bool)) (count : Nat)
    (g : BoundGeo) (rest : List BoundGeo) (k : Nat) :
    (identifyLoop filter count (g :: rest) k).1 =
      if identifyMatches filter g = true then
        (if count ≠ 0 ∧ count ≤ k + 1 then [g]
         else g :: (identifyLoop filter count rest (k + 1)).1)
      else (identifyLoop filter count rest k).1 := by
  by_cases hc : count ≠ 0 ∧ count ≤ k + 1 <;>
  · cases hf : filter with
    | none =>
      cases hv : g.geo.visible <;> cases hpp : g.geo.hasPainter <;>
        cases hla : g.geo.lineArrow <;> cases heo : g.geo.extentOk <;>
        cases hcp : g.geo.containsPt <;>
        simp [identifyLoop, identifyMatches, hv, hpp, hla, heo, hcp, hc]
    | some f =>
      cases hfg : f g <;>
        cases hv : g.geo.visible <;> cases hpp : g.geo.hasPainter <;>
          cases hla : g.geo.lineArrow <;> cases heo : g.geo.extentOk <;>
          cases hcp : g.geo.containsPt <;>
          simp [identifyLoop, identifyMatches, hv, hpp, hla, heo, hcp, hfg, hc]

lemma identifyLoop_fst (filter : Option (BoundGeo → Bool)) (count : Nat) :
    ∀ (l : List BoundGeo) (k : Nat), count = 0 ∨ k < count →
    (identifyLoop filter count l k).1 =
      (if count = 0 then l.filter (identifyMatches filter)
       else (l.filter (identifyMatches filter)).take (count - k))
  | [], k, _ => by simp [identifyLoop]
  | g :: rest, k, h => by
    rw [identifyLoop_fst_cons]
    by_cases hm : identifyMatches filter g = true
    · rw [if_pos hm]
      by_cases hc : count ≠ 0 ∧ count ≤ k + 1
      · rw [if_pos hc]
        have hk : count = k + 1 := by omega
        subst hk
        simp [List.filter_cons, hm, show k + 1 - k = 1 from by omega]
      · rw [if_neg hc]
        rw [identifyLoop_fst filter count rest (k + 1) (by omega)]
        rcases Nat.eq_zero_or_pos count with h0 | hpos
        · simp [h0, List.filter_cons, hm]
        · have hc0 : count ≠ 0 := by omega
          rw [show count - k = (count - (k + 1)) + 1 from by omega]
          simp [List.filter_cons, hm, hc0, List.take_succ_cons]
    · rw [if_neg hm]
      rw [identifyLoop_fst filter count rest k h]
      simp [List.filter_cons, hm]

lemma identifyLoop_snd_cons (filter : Option (BoundGeo → Bool)) (count : Nat)
    (g : BoundGeo) (rest : List BoundGeo) (k : Nat) :
    (identifyLoop filter count (g :: rest) k).2 =
      if (g.geo.visible && g.geo.hasPainter && (g.geo.lineArrow || g.geo.extentOk) &&
          g.geo.containsPt) = true then
        match filter with
        | none =>
          if count ≠ 0 ∧ count ≤ k + 1 then []
          else (identifyLoop filter count rest (k + 1)).2
        | some f =>
          if f g = true then
            (if count ≠ 0 ∧ count ≤ k + 1 then [g]
             else g :: (identifyLoop filter count rest (k + 1)).2)
          else g :: (identifyLoop filter count rest k).2
      else (identifyLoop filter count rest k).2 := by
  by_cases hc : count ≠ 0 ∧ count ≤ k + 1 <;>
  · cases hf : filter with
    | none =>
      cases hv : g.geo.visible <;> cases hpp : g.geo.hasPainter <;>
        cases hla : g.geo.lineArrow <;> cases heo : g.geo.extentOk <;>
        cases hcp : g.geo.containsPt <;>
        simp [identifyLoop, hv, hpp, hla, heo, hcp, hc]
    | some f =>
      cases hfg : f g <;>
        cases hv : g.geo.visible <;> cases hpp : g.geo.hasPainter <;>
          cases hla : g.geo.lineArrow <;> cases heo : g.geo.extentOk <;>
          cases hcp : g.geo.containsPt <;>
          simp [identifyLoop, hv, hpp, hla, heo, hcp, hfg, hc]

lemma identifyLoop_snd_mem (filter : Option (BoundGeo → Bool)) (count : Nat) :
    ∀ (l : List BoundGeo) (k : Nat) (x : BoundGeo), x ∈ (identifyLoop filter count l k).2 →
      x ∈ l ∧ x.geo.containsPt = true ∧ x.geo.visible = true ∧ x.geo.hasPainter = true
  | [], _, x, hx => by simp [identifyLoop] at hx
  | g :: rest, k, x, hx => by
    rw [identifyLoop_snd_cons] at hx
    by_cases hg : (g.geo.visible && g.geo.hasPainter && (g.geo.lineArrow || g.geo.extentOk) &&
        g.geo.containsPt) = true
    · rw [if_pos hg] at hx
      simp only [Bool.and_eq_true, Bool.or_eq_true] at hg
      cases hf2 : filter with
      | none =>
        rw [hf2] at hx
        dsimp only at hx
        split_ifs at hx with hcc
        · exact absurd hx (List.not_mem_nil x)
        · obtain ⟨hmem, hrest⟩ :=
            identifyLoop_snd_mem filter count rest (k + 1) x (by rw [hf2]; exact hx)
          exact ⟨List.mem_cons_of_mem g hmem, hrest⟩
      | some f =>
        rw [hf2] at hx
        dsimp only at hx
        by_cases hfg : f g = true
        · rw [if_pos hfg] at hx
          split_ifs at hx with hcc
          · simp only [List.mem_singleton] at hx
            subst hx
            exact ⟨List.mem_cons_self _ _, hg.2, hg.1.1.1, hg.1.1.2⟩
          · simp only [List.mem_cons] at hx
            rcases hx with rfl | hx
            · exact ⟨List.mem_cons_self _ _, hg.2, hg.1.1.1, hg.1.1.2⟩
            · obtain ⟨hmem, hrest⟩ :=
                identifyLoop_snd_mem filter count rest (k + 1) x (by rw [hf2]; exact hx)
              exact ⟨List.mem_cons_of_mem g hmem, hrest⟩
        · rw [if_neg hfg] at hx
          simp only [List.mem_cons] at hx
          rcases hx with rfl | hx
          · exact ⟨List.mem_cons_self _ _, hg.2, hg.1.1.1, hg.1.1.2⟩
          · obtain ⟨hmem, hrest⟩ :=
              identifyLoop_snd_mem filter count rest k x (by rw [hf2]; exact hx)
            exact ⟨List.mem_cons_of_mem g hmem, hrest⟩
    · rw [if_neg hg] at hx
      obtain ⟨hmem, hrest⟩ := identifyLoop_snd_mem filter count rest k x hx
      exact ⟨List.mem_cons_of_mem g hmem, hrest⟩

/-- The geometries of the spec's Example 1: A(z=0,id="a"), B(z=5,id="b"),
C(z=0,id="c"), all visible and containing the query point. -/
def exA : Geometry := { extId := some "a", zIndex := 0, containsPt := true }

/-- Example geometry B(z=5,id="b"). -/
def exB : Geometry := { extId := some "b", zIndex := 5, containsPt := true }

/-- Example geometry C(z=0,id="c"). -/
def exC : Geometry := { extId := some "c", zIndex := 0, containsPt := true }

/-- C4: over a store whose sequence is sorted ascending (the store
invariant), `identify` returns exactly the matching geometries of the
reversed sequence — i.e. in strictly descending draw order, topmost
first — truncated to `count` when a positive count cap is given; hence it
never exceeds the cap, is empty when nothing matches, and the filter
predicate is only ever invoked on geometries that passed the geometric
contains-point test (and the visibility/painter gates before it). -/
theorem identify_topmost_first (st : LayerState) (filter : Option (BoundGeo → Bool))
    (count : Nat) (hsorted : List.Pairwise geoLT st.geoList) :
    identify st filter count =
      (if count = 0 then st.geoList.reverse.filter (identifyMatches filter)
       else (st.geoList.reverse.filter (identifyMatches filter)).take count) ∧
    List.Pairwise (fun a b => geoLT b a) (identify st filter count) ∧
    (count ≠ 0 → (identify st filter count).length ≤ count) ∧
    ((∀ g ∈ st.geoList, identifyMatches filter g = false) →
      identify st filter count = []) ∧
    (∀ g ∈ identifyFilterCalls st filter count,
      g.geo.containsPt = true ∧ g.geo.visible = true ∧ g.geo.hasPainter = true) := by
  have hfst : identify st filter count =
      (if count = 0 then st.geoList.reverse.filter (identifyMatches filter)
       else (st.geoList.reverse.filter (identifyMatches filter)).take count) := by
    unfold identify
    rw [identifyLoop_fst filter count _ 0 (by omega)]
    simp only [Nat.sub_zero]
  refine ⟨hfst, ?_, ?_, ?_, ?_⟩
  · have hrev : List.Pairwise (fun a b => geoLT b a) st.geoList.reverse := by
      rw [List.pairwise_reverse]
      exact hsorted
    have hsub : List.Sublist (identify st filter count) st.geoList.reverse := by
      rw [hfst]
      split
      · exact List.filter_sublist _
      · exact (List.take_sublist _ _).trans (List.filter_sublist _)
    exact hrev.sublist hsub
  · intro hc
    rw [hfst, if_neg hc]
    exact List.length_take_le _ _
  · intro hall
    have hnil : st.geoList.reverse.filter (identifyMatches filter) = [] := by
      rw [List.filter_eq_nil_iff]
      intro a ha
      simp [hall a (List.mem_reverse.mp ha)]
    rw [hfst, hnil]
    split <;> simp
  · intro g hg
    exact (identifyLoop_snd_mem filter count _ 0 g hg).2

/-- Witness for `identify_topmost_first`: the store of Example 1 (A, B, C
added in that order, all hit); `identify` returns [B, C, A], topmost
first. -/
theorem identify_topmost_first_witness :
    List.Pairwise geoLT (runAdds [[exA], [exB], [exC]]).1.geoList ∧
    identify (runAdds [[exA], [exB], [exC]]).1 none 0 =
      [⟨exB, 1⟩, ⟨exC, 2⟩, ⟨exA, 0⟩] := by
  refine ⟨by decide, ?_⟩
  rw [(identify_topmost_first (runAdds [[exA], [exB], [exC]]).1 none 0 (by decide)).1]
  decide

/-! ### addGeometry ordering (C1) -/

lemma bindAll_append (u : Nat) (l1 l2 : List Geometry) :
    bindAll u (l1 ++ l2) = bindAll u l1 ++ bindAll (u + l1.length) l2 := by
  induction l1 generalizing u with
  | nil => simp [bindAll]
  | cons g rest ih =>
    simp only [List.cons_append, bindAll, List.length_cons, List.append_eq]
    rw [ih (u + 1), show u + (rest.length + 1) = u + 1 + rest.length from by omega]

lemma bindAll_map_internalId (u : Nat) (l : List Geometry) :
    (bindAll u l).map (fun b => b.internalId) = List.range' u l.length := by
  induction l generalizing u with
  | nil => simp [bindAll]
  | cons g rest ih => simp [bindAll, List.range', ih (u + 1)]

lemma addGeometryLoop_success (gs : List Geometry) :
    ∀ (st : LayerState) (i : Nat), (addGeometryLoop st (gs.map some) i).2 = none →
    (addGeometryLoop st (gs.map some) i).1.geoList = st.geoList ++ bindAll st.uid gs ∧
    (addGeometryLoop st (gs.map some) i).1.uid = st.uid + gs.length := by
  induction gs with
  | nil => intro st i _; simp [addGeometryLoop, bindAll]
  | cons g rest ih =>
    intro st i h
    simp only [List.map_cons, addGeometryLoop] at h ⊢
    cases hid : g.extId with
    | some gid =>
      rw [hid] at h
      dsimp only at h ⊢
      by_cases hdup : (mapLookup st.geoMap gid).isSome = true
      · rw [if_pos hdup] at h
        exact absurd h (by simp)
      · rw [if_neg hdup] at h ⊢
        obtain ⟨h1, h2⟩ := ih _ (i + 1) h
        refine ⟨?_, ?_⟩
        · rw [h1]
          simp [bindAll]
        · rw [h2]
          show st.uid + 1 + rest.length = st.uid + (rest.length + 1)
          omega
    | none =>
      rw [hid] at h
      dsimp only at h ⊢
      obtain ⟨h1, h2⟩ := ih _ (i + 1) h
      refine ⟨?_, ?_⟩
      · rw [h1]
        simp [bindAll]
      · rw [h2]
        show st.uid + 1 + rest.length = st.uid + (rest.length + 1)
        omega

lemma pairwise_geoLT_of_sorted {l : List BoundGeo} (hs : List.Pairwise geoLE l)
    (hn : (l.map (fun b => b.internalId)).Nodup) : List.Pairwise geoLT l := by
  have h1 : List.Pairwise (fun a b : BoundGeo => a.internalId ≠ b.internalId) l := by
    rw [List.Nodup, List.pairwise_map] at hn
    exact hn
  exact (hs.and h1).imp (fun hab => by
    unfold geoLE geoLT at *
    omega)

lemma addGeometry_eq_of_loop_none (st : LayerState) (gs : List (Option Geometry))
    (st1 : LayerState) (hne : gs.isEmpty = false)
    (hloop : addGeometryLoop st gs 0 = (st1, none)) :
    addGeometry st gs = ({ st1 with geoList := sortGeometries st1.geoList }, none) := by
  unfold addGeometry
  rw [hne, hloop]
  rfl

lemma addGeometry_eq_of_loop_some (st : LayerState) (gs : List (Option Geometry))
    (st1 : LayerState) (e : AddError) (hne : gs.isEmpty = false)
    (hloop : addGeometryLoop st gs 0 = (st1, some e)) :
    addGeometry st gs = (st1, some e) := by
  unfold addGeometry
  rw [hne, hloop]
  rfl

lemma runAddsFrom_cons_none (st : LayerState) (b : List Geometry)
    (rest : List (List Geometry)) (st' : LayerState)
    (h : addGeometry st (b.map some) = (st', none)) :
    runAddsFrom st (b :: rest) = runAddsFrom st' rest := by
  show (match addGeometry st (b.map some) with
        | (st', none) => runAddsFrom st' rest
        | (st', some e) => (st', some e)) = runAddsFrom st' rest
  rw [h]

lemma runAddsFrom_cons_some (st : LayerState) (b : List Geometry)
    (rest : List (List Geometry)) (st' : LayerState) (e : AddError)
    (h : addGeometry st (b.map some) = (st', some e)) :
    runAddsFrom st (b :: rest) = (st', some e) := by
  show (match addGeometry st (b.map some) with
        | (st', none) => runAddsFrom st' rest
        | (st', some e) => (st', some e)) = (st', some e)
  rw [h]

lemma runAddsFrom_sorted (batches : List (List Geometry)) :
    ∀ (st : LayerState) (L : List Geometry),
    st.uid = L.length →
    st.geoList.Perm (bindAll 0 L) →
    List.Pairwise geoLT st.geoList →
    (runAddsFrom st batches).2 = none →
    (runAddsFrom st batches).1.geoList.Perm (bindAll 0 (L ++ batches.flatten)) ∧
    List.Pairwise geoLT (runAddsFrom st batches).1.geoList := by
  induction batches with
  | nil =>
    intro st L hu hp hs _
    simpa [runAddsFrom] using ⟨hp, hs⟩
  | cons b rest ih =>
    intro st L hu hp hs h
    rcases hb : b with _ | ⟨g0, b'⟩
    · -- empty batch: addGeometry returns the store unchanged
      subst hb
      have hone : addGeometry st (([] : List Geometry).map some) = (st, none) := by
        simp [addGeometry]
      rw [runAddsFrom_cons_none st [] rest st hone] at h ⊢
      simpa using ih st L hu hp hs h
    · subst hb
      have hne : ((g0 :: b').map some).isEmpty = false := by simp
      rcases hloop : addGeometryLoop st ((g0 :: b').map some) 0 with ⟨st1, err⟩
      cases err with
      | some e =>
        rw [runAddsFrom_cons_some st _ rest st1 e
          (addGeometry_eq_of_loop_some st _ st1 e hne hloop)] at h
        simp at h
      | none =>
        have hadd : addGeometry st ((g0 :: b').map some) =
            ({ st1 with geoList := sortGeometries st1.geoList }, none) :=
          addGeometry_eq_of_loop_none st _ st1 hne hloop
        rw [runAddsFrom_cons_none st _ rest _ hadd] at h ⊢
        obtain ⟨hlist, huid⟩ := addGeometryLoop_success (g0 :: b') st 0 (by rw [hloop])
        rw [hloop] at hlist huid
        dsimp only at hlist huid
        set stS : LayerState := { st1 with geoList := sortGeometries st1.geoList } with hstS
        have hperm1 : stS.geoList.Perm (bindAll 0 (L ++ g0 :: b')) := by
          have hsortperm : (sortGeometries st1.geoList).Perm st1.geoList :=
            List.perm_insertionSort geoLE st1.geoList
          refine hsortperm.trans ?_
          rw [hlist, bindAll_append, Nat.zero_add, ← hu]
          exact hp.append_right _
        have hnodup : (stS.geoList.map (fun b => b.internalId)).Nodup := by
          have := (hperm1.map (fun b => b.internalId)).nodup_iff
          rw [this, bindAll_map_internalId]
          exact List.nodup_range' ..
        have hsorted1 : List.Pairwise geoLT stS.geoList := by
          refine pairwise_geoLT_of_sorted ?_ hnodup
          exact List.sorted_insertionSort geoLE st1.geoList
        have huid1 : stS.uid = (L ++ g0 :: b').length := by
          show st1.uid = (L ++ g0 :: b').length
          rw [huid, hu, List.length_append]
        have := ih stS (L ++ g0 :: b') huid1 hperm1 hsorted1 h
        rwa [List.append_assoc] at this

/-- C1: for every sequence of `addGeometry` calls that completes without an
exception, the layer's `_geoList` is a permutation of the insertion-order
sequence carrying internal ids 0,1,2,… in insertion order, and is pairwise
strictly ascending under (zIndex, internal id) — i.e. it equals the stable
sort of the insertion sequence by zIndex with ties broken by the
engine-assigned internal id (= insertion order). In particular adding
A(z=0,id="a"), then B(z=5,id="b"), then C(z=0,id="c") yields [A, C, B]. -/
theorem addGeometry_stable_sort :
    (∀ batches : List (List Geometry), (runAdds batches).2 = none →
      (runAdds batches).1.geoList.Perm (bindAll 0 batches.flatten) ∧
      List.Pairwise geoLT (runAdds batches).1.geoList) ∧
    (runAdds [[exA], [exB], [exC]]).1.geoList = [⟨exA, 0⟩, ⟨exC, 2⟩, ⟨exB, 1⟩] := by
  constructor
  · intro batches h
    have := runAddsFrom_sorted batches {} [] rfl (by simp [bindAll]) (by simp) h
    simpa [runAdds] using this
  · decide

/-- Witness for `addGeometry_stable_sort`: the Example-1 sequence completes
without error and satisfies the ordering conclusions. -/
theorem addGeometry_stable_sort_witness :
    (runAdds [[exA], [exB], [exC]]).2 = none ∧
    (runAdds [[exA], [exB], [exC]]).1.geoList.Perm
      (bindAll 0 ([[exA], [exB], [exC]] : List (List Geometry)).flatten) ∧
    List.Pairwise geoLT (runAdds [[exA], [exB], [exC]]).1.geoList :=
  ⟨by decide, addGeometry_stable_sort.1 [[exA], [exB], [exC]] (by decide)⟩

/-! ### addGeometry failure modes (C2, C3) -/

lemma addGeometryLoop_append (xs : List (Option Geometry)) :
    ∀ (ys : List (Option Geometry)) (st : LayerState) (i : Nat),
    addGeometryLoop st (xs ++ ys) i =
      (match addGeometryLoop st xs i with
       | (st', none) => addGeometryLoop st' ys (i + xs.length)
       | (st', some e) => (st', some e)) := by
  induction xs with
  | nil => intro ys st i; simp [addGeometryLoop]
  | cons x xs' ih =>
    intro ys st i
    cases x with
    | none => simp [addGeometryLoop]
    | some g =>
      simp only [List.cons_append, addGeometryLoop, List.append_eq]
      cases hid : g.extId with
      | some gid =>
        dsimp only
        by_cases hdup : (mapLookup st.geoMap gid).isSome = true
        · simp [hdup]
        · simp only [hdup, Bool.false_eq_true, if_false, if_neg hdup]
          rw [ih]
          simp only [List.length_cons]
          rw [show i + (xs'.length + 1) = i + 1 + xs'.length from by omega]
      | none =>
        dsimp only
        rw [ih]
        simp only [List.length_cons]
        rw [show i + (xs'.length + 1) = i + 1 + xs'.length from by omega]

/-- A plain geometry with external id "g1", used in the counterexamples. -/
def g1 : Geometry := { extId := some "g1" }

/-- A second geometry carrying the already-used external id "a". -/
def dupG : Geometry := { extId := some "a" }

/-- C3 counterexample: `addGeometry([g1, null])` does throw the validation
error naming index 1, but — contrary to the claim — g1 IS present in the
store afterwards: the entries processed before the offending index are not
rolled back by the thrown exception. -/
theorem addGeometry_null_entry_counterexample :
    (addGeometry {} [some g1, none]).2 = some (AddError.invalidGeometry 1) ∧
    (⟨g1, 0⟩ : BoundGeo) ∈ (addGeometry {} [some g1, none]).1.geoList := by
  decide

/-- C3 (amended): a null/undefined entry at index `i` of a batch makes
`addGeometry` throw a validation error naming `i`, and no entry from index
`i` onwards takes effect — but the entries before `i` (which necessarily
processed without error) remain applied to the store: `_geoList` is the old
list extended by exactly the bound prefix. With an empty prefix (the null
entry first) the list is unchanged. -/
theorem addGeometry_null_aborts_after_prefix (st : LayerState) (pre : List Geometry)
    (rest : List (Option Geometry))
    (h : (addGeometryLoop st (pre.map some) 0).2 = none) :
    (addGeometry st (pre.map some ++ none :: rest)).2 =
      some (AddError.invalidGeometry pre.length) ∧
    (addGeometry st (pre.map some ++ none :: rest)).1.geoList =
      st.geoList ++ bindAll st.uid pre := by
  rcases hloop : addGeometryLoop st (pre.map some) 0 with ⟨st1, err⟩
  have herr : err = none := by rw [hloop] at h; exact h
  subst herr
  obtain ⟨hlist, _⟩ := addGeometryLoop_success pre st 0 (by rw [hloop])
  rw [hloop] at hlist
  dsimp only at hlist
  have hfull : addGeometryLoop st (pre.map some ++ none :: rest) 0 =
      (st1, some (AddError.invalidGeometry pre.length)) := by
    rw [addGeometryLoop_append, hloop]
    dsimp only
    simp [addGeometryLoop]
  have hne : (pre.map some ++ none :: rest).isEmpty = false := by simp
  rw [addGeometry_eq_of_loop_some st _ st1 _ hne hfull]
  exact ⟨rfl, hlist⟩

/-- Witness for `addGeometry_null_aborts_after_prefix`: the Example-2 batch
`[g1, null]` against an empty store. -/
theorem addGeometry_null_aborts_after_prefix_witness :
    (addGeometryLoop {} ([g1].map some) 0).2 = none ∧
    ((addGeometry {} ([g1].map some ++ none :: [])).2 =
       some (AddError.invalidGeometry [g1].length) ∧
     (addGeometry {} ([g1].map some ++ none :: [])).1.geoList =
       LayerState.geoList {} ++ bindAll (LayerState.uid {}) [g1]) :=
  ⟨by decide, addGeometry_null_aborts_after_prefix {} [g1] [] (by decide)⟩

/-- C2 counterexample: with geometry A (id "a") already in the store, the
batch add `[C, A2]` — where A2 reuses id "a" — throws the duplicate-id
error at index 1, yet the store is NOT left identical to before the call:
the batch entry C processed before the collision stays in the store. -/
theorem addGeometry_duplicate_batch_counterexample :
    (addGeometry (runAdds [[exA]]).1 [some exC, some dupG]).2 =
      some (AddError.duplicateId "a" 1) ∧
    (⟨exC, 1⟩ : BoundGeo) ∈ (addGeometry (runAdds [[exA]]).1 [some exC, some dupG]).1.geoList ∧
    (addGeometry (runAdds [[exA]]).1 [some exC, some dupG]).1 ≠ (runAdds [[exA]]).1 := by
  decide

/-- C2 (amended): an external-id collision at index `i` of a batch makes
`addGeometry` throw the duplicate-id error naming the id and `i`, and no
entry from index `i` onwards takes effect; the (necessarily error-free)
entries before `i` remain applied. When the collision is at the first
position — in particular for a single-geometry add — the store is left
identical to before the call. -/
theorem addGeometry_duplicate_aborts_after_prefix (st : LayerState)
    (pre : List Geometry) (g : Geometry) (gid : String) (rest : List (Option Geometry))
    (h : (addGeometryLoop st (pre.map some) 0).2 = none)
    (hg : g.extId = some gid)
    (hdup : (mapLookup (addGeometryLoop st (pre.map some) 0).1.geoMap gid).isSome = true) :
    addGeometry st (pre.map some ++ some g :: rest) =
      ((addGeometryLoop st (pre.map some) 0).1,
        some (AddError.duplicateId gid pre.length)) ∧
    (addGeometryLoop st (pre.map some) 0).1.geoList = st.geoList ++ bindAll st.uid pre ∧
    (pre = [] → (addGeometry st (pre.map some ++ some g :: rest)).1 = st) := by
  rcases hloop : addGeometryLoop st (pre.map some) 0 with ⟨st1, err⟩
  rw [hloop] at h hdup
  dsimp only at h hdup ⊢
  subst h
  obtain ⟨hlist, _⟩ := addGeometryLoop_success pre st 0 (by rw [hloop])
  rw [hloop] at hlist
  dsimp only at hlist
  have hfull : addGeometryLoop st (pre.map some ++ some g :: rest) 0 =
      (st1, some (AddError.duplicateId gid pre.length)) := by
    rw [addGeometryLoop_append, hloop]
    dsimp only
    simp [addGeometryLoop, hg, hdup]
  have hne : (pre.map some ++ some g :: rest).isEmpty = false := by simp
  refine ⟨by rw [addGeometry_eq_of_loop_some st _ st1 _ hne hfull], hlist, ?_⟩
  intro hpre
  subst hpre
  have hst : st = st1 := by
    have hx := hloop
    simp [addGeometryLoop] at hx
    exact hx
  rw [addGeometry_eq_of_loop_some st _ st1 _ hne hfull]
  exact hst.symm

/-- Witness for `addGeometry_duplicate_aborts_after_prefix`: store holding
A(id "a"), batch `[C, A2]` with A2 reusing "a". -/
theorem addGeometry_duplicate_aborts_after_prefix_witness :
    (addGeometryLoop (runAdds [[exA]]).1 ([exC].map some) 0).2 = none ∧
    dupG.extId = some "a" ∧
    (mapLookup (addGeometryLoop (runAdds [[exA]]).1 ([exC].map some) 0).1.geoMap
      "a").isSome = true ∧
    (addGeometry (runAdds [[exA]]).1 ([exC].map some ++ some dupG :: []) =
       ((addGeometryLoop (runAdds [[exA]]).1 ([exC].map some) 0).1,
         some (AddError.duplicateId "a" [exC].length)) ∧
     (addGeometryLoop (runAdds [[exA]]).1 ([exC].map some) 0).1.geoList =
       (runAdds [[exA]]).1.geoList ++ bindAll (runAdds [[exA]]).1.uid [exC] ∧
     ([exC] = ([] : List Geometry) →
       (addGeometry (runAdds [[exA]]).1 ([exC].map some ++ some dupG :: [])).1 =
         (runAdds [[exA]]).1)) :=
  ⟨by decide, by decide, by decide,
    addGeometry_duplicate_aborts_after_prefix (runAdds [[exA]]).1 [exC] dupG "a" []
      (by decide) (by decide) (by decide)⟩

/-! ### ImageMarkerSymbolizer (C9) -/

/-- The canvas 2D context state as far as the image-marker draw observes
it: the current `globalAlpha` and the alpha components of the states
pushed by `save()` and popped by `restore()`. -/
structure CanvasCtx where
  globalAlpha : ℚ
  saved : List ℚ
  deriving DecidableEq, Repr

/-- `ctx.save()`. -/
def ctxSave (c : CanvasCtx) : CanvasCtx := { c with saved := c.globalAlpha :: c.saved }

/-- `ctx.restore()`. -/
def ctxRestore (c : CanvasCtx) : CanvasCtx :=
  match c.saved with
  | [] => c
  | a :: rest => { globalAlpha := a, saved := rest }

/-- `Canvas.image`: blits pixels; leaves the alpha state untouched. -/
def canvasImage (c : CanvasCtx) : CanvasCtx := c

/-- The resolved image-marker style fields `symbolize` consults
(`translate`, ImageMarkerSymbolizer.js:120-130): nullable numbers as
`Option ℚ` (`isNumber` = `isSome`). -/
structure ImageMarkerStyle where
  markerOpacity : Option ℚ := some 1
  markerWidth : Option ℚ := none
  markerHeight : Option ℚ := none
  deriving DecidableEq, Repr

/-- The draw loop of `symbolize` (ImageMarkerSymbolizer.js:66-80): per
cooked point, `_rotate` may establish a rotated frame (`ctx.save()` plus
transforms), in which case `ctx.restore()` runs after the blit. `points`
records, per cooked point, whether a rotation origin was returned. -/
def imageDrawLoop : List Bool → CanvasCtx → CanvasCtx
  | [], c => c
  | rot :: rest, c =>
    if rot then imageDrawLoop rest (ctxRestore (canvasImage (ctxSave c)))
    else imageDrawLoop rest (canvasImage c)

/-- Modelled from the spec: `_prepareContext`, the `CanvasSymbolizer` hook
(not under `src/`) that `symbolize` invokes on the drawing context at
ImageMarkerSymbolizer.js:42 before drawing. Using the drawing surface's
"set global alpha" operation, it establishes the symbol-level opacity on
the context: `ctx.globalAlpha` is assigned the symbol's numeric `opacity`,
defaulting to 1 when absent (`none` models a missing or non-numeric
`opacity`). -/
def prepareContext (symbolOpacity : Option ℚ) (c : CanvasCtx) : CanvasCtx :=
  match symbolOpacity with
  | some o => { c with globalAlpha := o }
  | none => { c with globalAlpha := 1 }

/-- `ImageMarkerSymbolizer.symbolize` (ImageMarkerSymbolizer.js:25-84),
restricted to its effect on the context alpha state: early return on zero
width/height/opacity, on an empty cooked-point list and on a missing
image; then `this._prepareContext(ctx)` (line 42) establishes the
symbol-level opacity on the context; then, when the marker type is not
"path" and the numeric markerOpacity is below 1, `globalAlpha` is scaled
by that opacity for the duration of the draw loop and the value saved
after `_prepareContext` is assigned back before returning. The
width/height resolution from the image natural size and the
resource-cache registration touch the style and resource cache only, not
the context. `symbolOpacity` is the raw symbol's `opacity` consumed by
`_prepareContext`. -/
def imageSymbolize (markerType : Option String) (symbolOpacity : Option ℚ)
    (style : ImageMarkerStyle) (imgFound : Bool) (points : List Bool)
    (ctx : CanvasCtx) : CanvasCtx :=
  if style.markerWidth = some 0 ∨ style.markerHeight = some 0 ∨
      style.markerOpacity = some 0 then ctx
  else if points.isEmpty then ctx
  else if ¬imgFound then ctx
  else
    let ctx0 := prepareContext symbolOpacity ctx
    match style.markerOpacity with
    | some op =>
      if markerType ≠ some "path" ∧ op < 1 then
        let alpha := ctx0.globalAlpha
        let ctx1 := { ctx0 with globalAlpha := ctx0.globalAlpha * op }
        let ctx2 := imageDrawLoop points ctx1
        { ctx2 with globalAlpha := alpha }
      else imageDrawLoop points ctx0
    | none => imageDrawLoop points ctx0

lemma imageDrawLoop_id : ∀ (points : List Bool) (c : CanvasCtx),
    imageDrawLoop points c = c
  | [], _ => rfl
  | rot :: rest, c => by
    cases rot <;>
      simp [imageDrawLoop, canvasImage, ctxSave, ctxRestore, imageDrawLoop_id rest]

/-- C9 counterexample: a draw satisfying the claim's hypotheses — numeric
markerOpacity 1/2 below 1, marker type not "path", image found, one
cooked point — on a context whose globalAlpha is 3/10 and whose symbol
carries no `opacity`. `_prepareContext` sets globalAlpha to 1 before the
marker-opacity snapshot, so `symbolize` returns with globalAlpha 1, not
the pre-call 3/10: the claimed "globalAlpha is unchanged after any single
symbolize call" is false. -/
theorem symbolize_globalAlpha_changed_counterexample :
    (imageSymbolize none none
        (ImageMarkerStyle.mk (some (1/2)) (some 10) (some 10)) true [false]
        (CanvasCtx.mk (3/10) [])).globalAlpha = 1 ∧
    (imageSymbolize none none
        (ImageMarkerStyle.mk (some (1/2)) (some 10) (some 10)) true [false]
        (CanvasCtx.mk (3/10) [])).globalAlpha ≠ (CanvasCtx.mk (3/10) []).globalAlpha := by
  constructor <;> norm_num [imageSymbolize, prepareContext, imageDrawLoop, canvasImage]

/-- C9 (amended): for an image-marker draw that reaches the drawing code
(nonzero width/height/opacity, cooked points present, image found) with a
numeric markerOpacity strictly below 1 and a marker type other than
"path", `symbolize` scales the context globalAlpha by that opacity only
for the duration of its own draw calls and, before returning, restores
globalAlpha to the value the inherited `_prepareContext` hook established
— the symbol's numeric `opacity`, or 1 when absent — not to the pre-call
value. The context's globalAlpha is unchanged by the call only when it
already held that symbol-level value. -/
theorem symbolize_restores_prepared_alpha (markerType : Option String)
    (symbolOpacity : Option ℚ) (style : ImageMarkerStyle) (imgFound : Bool)
    (points : List Bool) (ctx : CanvasCtx) (op : ℚ)
    (hop : style.markerOpacity = some op) (hlt : op < 1)
    (hpath : markerType ≠ some "path")
    (hnz : ¬(style.markerWidth = some 0 ∨ style.markerHeight = some 0 ∨
      style.markerOpacity = some 0))
    (hpts : points.isEmpty = false) (himg : imgFound = true) :
    (imageSymbolize markerType symbolOpacity style imgFound points ctx).globalAlpha =
      (match symbolOpacity with | some o => o | none => 1) := by
  unfold imageSymbolize
  rw [if_neg hnz, hpts, himg, hop]
  rw [if_neg (by simp : ¬((false : Bool) = true)), if_neg (by simp : ¬(¬(true : Bool) = true))]
  dsimp only
  rw [if_pos (show markerType ≠ some "path" ∧ op < 1 from ⟨hpath, hlt⟩)]
  cases symbolOpacity <;> rfl

/-- Witness for `symbolize_restores_prepared_alpha`: markerOpacity 1/2,
no symbol opacity, one rotated cooked point, pre-call globalAlpha 3/10;
the call returns with globalAlpha 1. -/
theorem symbolize_restores_prepared_alpha_witness :
    (ImageMarkerStyle.mk (some (1/2)) (some 10) (some 10)).markerOpacity = some (1/2) ∧
    ((1 : ℚ)/2) < 1 ∧
    (none : Option String) ≠ some "path" ∧
    ¬((ImageMarkerStyle.mk (some (1/2)) (some 10) (some 10)).markerWidth = some 0 ∨
      (ImageMarkerStyle.mk (some (1/2)) (some 10) (some 10)).markerHeight = some 0 ∨
      (ImageMarkerStyle.mk (some (1/2)) (some 10) (some 10)).markerOpacity = some 0) ∧
    (imageSymbolize none none (ImageMarkerStyle.mk (some (1/2)) (some 10) (some 10))
        true [true] (CanvasCtx.mk (3/10) [])).globalAlpha =
      (match (none : Option ℚ) with | some o => o | none => 1) :=
  ⟨rfl, by norm_num, by simp, by norm_num,
    symbolize_restores_prepared_alpha none none
      (ImageMarkerStyle.mk (some (1/2)) (some 10) (some 10)) true [true]
      (CanvasCtx.mk (3/10) []) (1/2) rfl (by norm_num) (by simp) (by norm_num) rfl rfl⟩

/-! ### TextMarkerSymbolizer (C6, C7) -/

/-- A raw text symbol: each recognized property either absent/nullish
(`none`) or a literal; numeric style values are modelled as integers.
`dynamic` —

Modelled from the spec: `hasFunctionDefinition` from `core/mapbox` (not
under `src/`) classifies a symbol as dynamic when any property is a
computed expression; modelled as a flag on the symbol. -/
structure TextSymbol where
  textName : String := ""
  dynamic : Bool := false
  textFaceName : Option String := none
  textWeight : Option String := none
  textStyle : Option String := none
  textSize : Option Int := none
  textFont : Option String := none
  textFill : Option String := none
  textOpacity : Option Int := none
  textHaloFill : Option String := none
  textHaloRadius : Option Int := none
  textHaloOpacity : Option Int := none
  textWrapWidth : Option Int := none
  textWrapBefore : Option Bool := none
  textWrapCharacter : Option String := none
  textLineSpacing : Option Int := none
  textDx : Option Int := none
  textDy : Option Int := none
  textHorizontalAlignment : Option String := none
  textVerticalAlignment : Option String := none
  textAlign : Option String := none
  deriving DecidableEq, Repr

/-- The fully defaulted style `translate` produces. -/
structure TextStyle where
  textName : String
  textFaceName : String
  textWeight : String
  textStyle : String
  textSize : Int
  textFont : Option String
  textFill : String
  textOpacity : Int
  textHaloFill : String
  textHaloRadius : Int
  textHaloOpacity : Int
  textWrapWidth : Option Int
  textWrapBefore : Bool
  textWrapCharacter : String
  textLineSpacing : Int
  textDx : Int
  textDy : Int
  textHorizontalAlignment : String
  textVerticalAlignment : String
  textAlign : String
  deriving DecidableEq, Repr

/-- `getValueOrDefault(v, d)` —

Modelled from the spec: from `core/util` (not under `src/`): yields the
default when the raw value is absent or nullish, else the raw value. -/
def getValueOrDefault {α : Type} (v : Option α) (d : α) : α := v.getD d

/-- `TextMarkerSymbolizer.translate` (part_001 lines 103-133): fill every
recognized text property from the raw symbol, defaulting absent/nullish
values; a pure function of the raw symbol. `textFont` and `textWrapWidth`
default to null. -/
def translate (s : TextSymbol) : TextStyle where
  textName := s.textName
  textFaceName := getValueOrDefault s.textFaceName "monospace"
  textWeight := getValueOrDefault s.textWeight "normal"
  textStyle := getValueOrDefault s.textStyle "normal"
  textSize := getValueOrDefault s.textSize 10
  textFont := s.textFont
  textFill := getValueOrDefault s.textFill "#000"
  textOpacity := getValueOrDefault s.textOpacity 1
  textHaloFill := getValueOrDefault s.textHaloFill "#ffffff"
  textHaloRadius := getValueOrDefault s.textHaloRadius 0
  textHaloOpacity := getValueOrDefault s.textHaloOpacity 1
  textWrapWidth := s.textWrapWidth
  textWrapBefore := getValueOrDefault s.textWrapBefore false
  textWrapCharacter := getValueOrDefault s.textWrapCharacter "\n"
  textLineSpacing := getValueOrDefault s.textLineSpacing 0
  textDx := getValueOrDefault s.textDx 0
  textDy := getValueOrDefault s.textDy 0
  textHorizontalAlignment := getValueOrDefault s.textHorizontalAlignment "middle"
  textVerticalAlignment := getValueOrDefault s.textVerticalAlignment "middle"
  textAlign := getValueOrDefault s.textAlign "center"

/-- Little-endian decimal digit characters of a natural number, with
explicit fuel (the fuel never runs out when it starts at the number
itself, since the quotient shrinks every step). -/
def natDigitsF : Nat → Nat → List Char
  | _, 0 => []
  | 0, _ + 1 => []
  | f + 1, n + 1 => Nat.digitChar ((n + 1) % 10) :: natDigitsF f ((n + 1) / 10)

/-- Little-endian decimal digit characters of a natural number. -/
def natDigits (n : Nat) : List Char := natDigitsF n n

/-- Decimal rendering of a natural number (JS string conversion). -/
def natRender (n : Nat) : String :=
  if n = 0 then "0" else String.mk (natDigits n).reverse

/-- Decimal rendering of an integer: JS string conversion of an integral
number. -/
def intRender (i : Int) : String :=
  if i < 0 then "-" ++ natRender i.natAbs else natRender i.natAbs

/-- JS string concatenation renders null as "null". -/
def optStrRender : Option String → String
  | none => "null"
  | some s => s

/-- JS rendering of a nullable integral number. -/
def optIntRender : Option Int → String
  | none => "null"
  | some i => intRender i

/-- JS rendering of a boolean. -/
def boolRender (b : Bool) : String := if b then "true" else "false"

/-- The style's own enumerable properties, in the insertion order of the
object literal in `translate`, with their JS string renderings — what the
`for (const p in style)` loop of `genCacheKey` enumerates. -/
def styleProps (t : TextStyle) : List (String × String) :=
  [("textName", t.textName),
   ("textFaceName", t.textFaceName),
   ("textWeight", t.textWeight),
   ("textStyle", t.textStyle),
   ("textSize", intRender t.textSize),
   ("textFont", optStrRender t.textFont),
   ("textFill", t.textFill),
   ("textOpacity", intRender t.textOpacity),
   ("textHaloFill", t.textHaloFill),
   ("textHaloRadius", intRender t.textHaloRadius),
   ("textHaloOpacity", intRender t.textHaloOpacity),
   ("textWrapWidth", optIntRender t.textWrapWidth),
   ("textWrapBefore", boolRender t.textWrapBefore),
   ("textWrapCharacter", t.textWrapCharacter),
   ("textLineSpacing", intRender t.textLineSpacing),
   ("textDx", intRender t.textDx),
   ("textDy", intRender t.textDy),
   ("textHorizontalAlignment", t.textHorizontalAlignment),
   ("textVerticalAlignment", t.textVerticalAlignment),
   ("textAlign", t.textAlign)]

/-- `Array.prototype.join('-')`. -/
def joinDash : List String → String
  | [] => ""
  | [s] => s
  | s :: rest => s ++ "-" ++ joinDash rest

/-- `genCacheKey` (part_001 lines 178-186): the rendered content followed
by every own style property whose name is longer than 4 characters and
starts with "text", rendered as `name=value`, joined with "-". -/
def genCacheKey (textContent : String) (style : TextStyle) : String :=
  joinDash (textContent ::
    (styleProps style).foldr (fun pv acc =>
      if 4 < pv.1.length ∧ pv.1.take 4 = "text" then (pv.1 ++ "=" ++ pv.2) :: acc
      else acc) [])

/-- Property read on a JS object used as a string-keyed dictionary
(the per-geometry cache `geometry[CACHE_KEY]`). -/
def jsObjGet {δ : Type} : List (String × δ) → String → Option δ
  | [], _ => none
  | (k', v) :: rest, k => if k' = k then some v else jsObjGet rest k

/-- Property write on a JS object used as a string-keyed dictionary. -/
def jsObjSet {δ : Type} : List (String × δ) → String → δ → List (String × δ)
  | [], k, v => [(k, v)]
  | (k', v') :: rest, k, v =>
    if k' = k then (k, v) :: rest else (k', v') :: jsObjSet rest k v

/-- `_descText` (part_001 lines 148-158) with `_loadFromCache` and
`_storeToCache` (IS_NODE false: browser environment). `split` is
`splitTextToRow` from `core/util/strings` (external to src/), kept
abstract; `δ` is its descriptor type. For a dynamic symbol the descriptor
is always recomputed and the cache untouched; for a static symbol the
cached entry under the symbolizer's cache key is returned when present,
else the descriptor is computed and stored under that key. Returns the
descriptor, the updated per-geometry cache, and whether `splitTextToRow`
ran. -/
def descText {δ : Type} (dyn : Bool) (split : String → TextStyle → δ)
    (style : TextStyle) (cacheKey : String) (textContent : String)
    (cache : List (String × δ)) : δ × List (String × δ) × Bool :=
  if dyn then (split textContent style, cache, true)
  else
    match jsObjGet cache cacheKey with
    | some d => (d, cache, false)
    | none =>
      let d := split textContent style
      (d, jsObjSet cache cacheKey d, true)

/-! ### Decimal rendering is injective -/

/-- The numeric value of a little-endian digit-character list. -/
def digitsVal : List Char → Nat
  | [] => 0
  | c :: cs => (c.toNat - 48) + 10 * digitsVal cs

lemma digitVal_digitChar {d : Nat} (h : d < 10) : (Nat.digitChar d).toNat - 48 = d := by
  interval_cases d <;> rfl

lemma digitsVal_natDigitsF : ∀ (n f : Nat), n ≤ f → digitsVal (natDigitsF f n) = n := by
  intro n
  induction n using Nat.strong_induction_on with
  | _ n ih =>
    intro f hf
    cases n with
    | zero => cases f <;> rfl
    | succ m =>
      cases f with
      | zero => omega
      | succ g =>
        rw [natDigitsF, digitsVal]
        have h10 : (m + 1) % 10 < 10 := Nat.mod_lt _ (by omega)
        rw [digitVal_digitChar h10]
        have hlt : (m + 1) / 10 < m + 1 := Nat.div_lt_self (by omega) (by omega)
        rw [ih _ hlt g (by omega)]
        exact Nat.mod_add_div (m + 1) 10

lemma natDigits_injective {n m : Nat} (h : natDigits n = natDigits m) : n = m := by
  have h1 := digitsVal_natDigitsF n n le_rfl
  have h2 := digitsVal_natDigitsF m m le_rfl
  unfold natDigits at h
  rw [← h1, ← h2, h]

lemma dash_not_mem_natDigitsF : ∀ (n f : Nat), '-' ∉ natDigitsF f n := by
  intro n
  induction n using Nat.strong_induction_on with
  | _ n ih =>
    intro f
    cases n with
    | zero => cases f <;> simp [natDigitsF]
    | succ m =>
      cases f with
      | zero => simp [natDigitsF]
      | succ g =>
        rw [natDigitsF]
        simp only [List.mem_cons, not_or]
        have hd : ∀ d, d < 10 → Nat.digitChar d ≠ '-' := by decide
        have h10 : (m + 1) % 10 < 10 := Nat.mod_lt _ (by omega)
        refine ⟨fun hh => hd _ h10 hh.symm, ?_⟩
        exact ih _ (Nat.div_lt_self (by omega) (by omega)) g

lemma dash_not_mem_natRender (n : Nat) : '-' ∉ (natRender n).data := by
  unfold natRender
  split
  · simp [String.data]
  · show '-' ∉ (natDigits n).reverse
    rw [List.mem_reverse]
    exact dash_not_mem_natDigitsF n n

lemma natRender_injective {n m : Nat} (h : natRender n = natRender m) : n = m := by
  have hzero : ∀ k : Nat, k ≠ 0 → "0" ≠ natRender k := by
    intro k hk hc
    have hd : ('0' :: ([] : List Char)) = (natDigits k).reverse := congrArg String.data
      (by rw [natRender, if_neg hk] at hc; exact hc)
    have hlist : natDigits k = ['0'] := by
      have := congrArg List.reverse hd
      simpa using this.symm
    have hv := digitsVal_natDigitsF k k le_rfl
    rw [show natDigitsF k k = natDigits k from rfl, hlist] at hv
    have : digitsVal ['0'] = 0 := by decide
    omega
  unfold natRender at h
  by_cases hn : n = 0 <;> by_cases hm : m = 0
  · omega
  · rw [if_pos hn, if_neg hm] at h
    exact absurd (show "0" = natRender m by rw [natRender, if_neg hm]; exact h) (hzero m hm)
  · rw [if_neg hn, if_pos hm] at h
    exact absurd (show "0" = natRender n by rw [natRender, if_neg hn]; exact h.symm)
      (hzero n hn)
  · rw [if_neg hn, if_neg hm] at h
    have hd : (natDigits n).reverse = (natDigits m).reverse := congrArg String.data h
    exact natDigits_injective (List.reverse_injective hd)

lemma intRender_injective {i j : Int} (h : intRender i = intRender j) : i = j := by
  have hmix : ∀ (a b : Nat), "-" ++ natRender a ≠ natRender b := by
    intro a b hc
    have hd := congrArg String.data hc
    rw [String.data_append] at hd
    have hmem : '-' ∈ (natRender b).data := by
      rw [← hd]
      exact List.mem_append_left _ (by simp [String.data])
    exact dash_not_mem_natRender b hmem
  unfold intRender at h
  by_cases hi : i < 0 <;> by_cases hj : j < 0
  · rw [if_pos hi, if_pos hj] at h
    have hd := congrArg String.data h
    simp only [String.data_append] at hd
    have hn := natRender_injective (String.ext (List.append_cancel_left hd))
    omega
  · rw [if_pos hi, if_neg hj] at h
    exact absurd h (hmix _ _)
  · rw [if_neg hi, if_pos hj] at h
    exact absurd h.symm (hmix _ _)
  · rw [if_neg hi, if_neg hj] at h
    have := natRender_injective h
    omega

/-! ### Cache-key structure -/

lemma joinDash_cons_cons (s t : String) (r : List String) :
    joinDash (s :: t :: r) = s ++ "-" ++ joinDash (t :: r) := rfl

lemma joinDash_inj_at : ∀ (pre : List String) (x y : String) (post : List String),
    joinDash (pre ++ x :: post) = joinDash (pre ++ y :: post) → x = y := by
  intro pre
  induction pre with
  | nil =>
    intro x y post h
    cases post with
    | nil => simpa [joinDash] using h
    | cons p rest =>
      rw [List.nil_append, List.nil_append, joinDash_cons_cons, joinDash_cons_cons] at h
      have hd := congrArg String.data h
      simp only [String.data_append] at hd
      exact String.ext (List.append_cancel_right (List.append_cancel_right hd))
  | cons p pre ih =>
    intro x y post h
    have h1 : joinDash ((p :: pre) ++ x :: post) =
        p ++ "-" ++ joinDash (pre ++ x :: post) := by
      cases pre <;> rfl
    have h2 : joinDash ((p :: pre) ++ y :: post) =
        p ++ "-" ++ joinDash (pre ++ y :: post) := by
      cases pre <;> rfl
    rw [h1, h2] at h
    have hd := congrArg String.data h
    simp only [String.data_append] at hd
    exact ih x y post (String.ext (List.append_cancel_left hd))

lemma genCacheKey_eq_joinDash (c : String) (t : TextStyle) :
    genCacheKey c t = joinDash
      [c,
       "textName" ++ "=" ++ t.textName,
       "textFaceName" ++ "=" ++ t.textFaceName,
       "textWeight" ++ "=" ++ t.textWeight,
       "textStyle" ++ "=" ++ t.textStyle,
       "textSize" ++ "=" ++ intRender t.textSize,
       "textFont" ++ "=" ++ optStrRender t.textFont,
       "textFill" ++ "=" ++ t.textFill,
       "textOpacity" ++ "=" ++ intRender t.textOpacity,
       "textHaloFill" ++ "=" ++ t.textHaloFill,
       "textHaloRadius" ++ "=" ++ intRender t.textHaloRadius,
       "textHaloOpacity" ++ "=" ++ intRender t.textHaloOpacity,
       "textWrapWidth" ++ "=" ++ optIntRender t.textWrapWidth,
       "textWrapBefore" ++ "=" ++ boolRender t.textWrapBefore,
       "textWrapCharacter" ++ "=" ++ t.textWrapCharacter,
       "textLineSpacing" ++ "=" ++ intRender t.textLineSpacing,
       "textDx" ++ "=" ++ intRender t.textDx,
       "textDy" ++ "=" ++ intRender t.textDy,
       "textHorizontalAlignment" ++ "=" ++ t.textHorizontalAlignment,
       "textVerticalAlignment" ++ "=" ++ t.textVerticalAlignment,
       "textAlign" ++ "=" ++ t.textAlign] := by
  have hkeep : ∀ (name : String), 4 < name.length → name.take 4 = "text" →
      ∀ (v : String) (acc : List String),
      (if 4 < name.length ∧ name.take 4 = "text"
       then (name ++ "=" ++ v) :: acc else acc) = (name ++ "=" ++ v) :: acc :=
    fun _ h1 h2 _ _ => if_pos ⟨h1, h2⟩
  unfold genCacheKey styleProps
  dsimp only [List.foldr]
  rw [hkeep "textName" (by decide) (by decide),
      hkeep "textFaceName" (by decide) (by decide),
      hkeep "textWeight" (by decide) (by decide),
      hkeep "textStyle" (by decide) (by decide),
      hkeep "textSize" (by decide) (by decide),
      hkeep "textFont" (by decide) (by decide),
      hkeep "textFill" (by decide) (by decide),
      hkeep "textOpacity" (by decide) (by decide),
      hkeep "textHaloFill" (by decide) (by decide),
      hkeep "textHaloRadius" (by decide) (by decide),
      hkeep "textWrapWidth" (by decide) (by decide),
      hkeep "textWrapBefore" (by decide) (by decide),
      hkeep "textWrapCharacter" (by decide) (by decide),
      hkeep "textLineSpacing" (by decide) (by decide),
      hkeep "textDx" (by decide) (by decide),
      hkeep "textDy" (by decide) (by decide),
      hkeep "textHorizontalAlignment" (by decide) (by decide),
      hkeep "textVerticalAlignment" (by decide) (by decide),
      hkeep "textAlign" (by decide) (by decide),
      hkeep "textHaloOpacity" (by decide) (by decide)]

lemma genCacheKey_textSize_ne (c : String) (t : TextStyle) {n m : Int} (hnm : n ≠ m) :
    genCacheKey c { t with textSize := n } ≠ genCacheKey c { t with textSize := m } := by
  intro h
  rw [genCacheKey_eq_joinDash, genCacheKey_eq_joinDash] at h
  have hx := joinDash_inj_at
    [c,
     "textName" ++ "=" ++ t.textName,
     "textFaceName" ++ "=" ++ t.textFaceName,
     "textWeight" ++ "=" ++ t.textWeight,
     "textStyle" ++ "=" ++ t.textStyle]
    ("textSize" ++ "=" ++ intRender n) ("textSize" ++ "=" ++ intRender m)
    ["textFont" ++ "=" ++ optStrRender t.textFont,
     "textFill" ++ "=" ++ t.textFill,
     "textOpacity" ++ "=" ++ intRender t.textOpacity,
     "textHaloFill" ++ "=" ++ t.textHaloFill,
     "textHaloRadius" ++ "=" ++ intRender t.textHaloRadius,
     "textHaloOpacity" ++ "=" ++ intRender t.textHaloOpacity,
     "textWrapWidth" ++ "=" ++ optIntRender t.textWrapWidth,
     "textWrapBefore" ++ "=" ++ boolRender t.textWrapBefore,
     "textWrapCharacter" ++ "=" ++ t.textWrapCharacter,
     "textLineSpacing" ++ "=" ++ intRender t.textLineSpacing,
     "textDx" ++ "=" ++ intRender t.textDx,
     "textDy" ++ "=" ++ intRender t.textDy,
     "textHorizontalAlignment" ++ "=" ++ t.textHorizontalAlignment,
     "textVerticalAlignment" ++ "=" ++ t.textVerticalAlignment,
     "textAlign" ++ "=" ++ t.textAlign] h
  have hd := congrArg String.data hx
  simp only [String.data_append] at hd
  exact hnm (intRender_injective (String.ext (List.append_cancel_left hd)))

lemma jsObjGet_jsObjSet_self {δ : Type} :
    ∀ (c : List (String × δ)) (k : String) (v : δ),
    jsObjGet (jsObjSet c k v) k = some v := by
  intro c k v
  induction c with
  | nil => simp [jsObjGet, jsObjSet]
  | cons p rest ih =>
    by_cases hk : p.1 = k
    · simp [jsObjGet, jsObjSet, hk]
    · simp [jsObjGet, jsObjSet, hk, ih]

/-- C6: the text-layout cache behaves per the static/dynamic split. (1) A
static symbolizer's second `_descText` with the same cache key returns the
entry stored by the first call, without recomputation and without growing
the cache. (2) The cache key separates styles by `textSize`: two styles
identical except for a different `textSize` produce different keys, hence
distinct cache entries. (3) A dynamic symbolizer never consults or
populates the cache: it always recomputes the descriptor via
`splitTextToRow` and returns the cache untouched. -/
theorem text_cache_static_dynamic :
    (∀ (δ : Type) (split : String → TextStyle → δ) (style : TextStyle)
       (key content : String) (cache : List (String × δ)),
       descText false split style key content
           (descText false split style key content cache).2.1 =
         ((descText false split style key content cache).1,
          (descText false split style key content cache).2.1, false)) ∧
    (∀ (content : String) (t : TextStyle) (n m : Int), n ≠ m →
       genCacheKey content { t with textSize := n } ≠
         genCacheKey content { t with textSize := m }) ∧
    (∀ (δ : Type) (split : String → TextStyle → δ) (style : TextStyle)
       (key content : String) (cache : List (String × δ)),
       descText true split style key content cache =
         (split content style, cache, true)) := by
  refine ⟨?_, fun content t n m hnm => genCacheKey_textSize_ne content t hnm, ?_⟩
  · intro δ split style key content cache
    unfold descText
    simp only [if_neg (by simp : ¬(false = true))]
    cases hget : jsObjGet cache key with
    | some d => simp [hget]
    | none => simp [hget, jsObjGet_jsObjSet_self]
  · intro δ split style key content cache
    rfl

/-- Witness for `text_cache_static_dynamic`: the Example-4 scenario — the
static style of `{textName:'Hi'}` with font sizes 10 and 12 gets distinct
keys, and a second static layout with the same key hits the stored entry. -/
theorem text_cache_static_dynamic_witness :
    ((10 : Int) ≠ 12) ∧
    genCacheKey "Hi" { translate { textName := "Hi" } with textSize := 10 } ≠
      genCacheKey "Hi" { translate { textName := "Hi" } with textSize := 12 } ∧
    descText false (fun (_ : String) (_ : TextStyle) => (0 : Nat))
        (translate { textName := "Hi" })
        (genCacheKey "Hi" (translate { textName := "Hi" })) "Hi"
        (descText false (fun _ _ => (0 : Nat)) (translate { textName := "Hi" })
          (genCacheKey "Hi" (translate { textName := "Hi" })) "Hi" []).2.1 =
      ((descText false (fun _ _ => (0 : Nat)) (translate { textName := "Hi" })
          (genCacheKey "Hi" (translate { textName := "Hi" })) "Hi" []).1,
       (descText false (fun _ _ => (0 : Nat)) (translate { textName := "Hi" })
          (genCacheKey "Hi" (translate { textName := "Hi" })) "Hi" []).2.1, false) :=
  ⟨by decide, text_cache_static_dynamic.2.1 "Hi" (translate { textName := "Hi" }) 10 12
      (by decide),
    text_cache_static_dynamic.1 Nat (fun _ _ => 0) (translate { textName := "Hi" })
      (genCacheKey "Hi" (translate { textName := "Hi" })) "Hi" []⟩

/-- C7: `translate` is a pure function of the raw symbol that fills the
documented default for every recognized text property whose raw value is
absent or nullish; in particular `{textName:'Hi'}` resolves to
textSize 10, textFill "#000", textOpacity 1, textHaloRadius 0 (and the
remaining documented defaults). -/
theorem translate_defaults :
    (∀ s : TextSymbol, s.textSize = none → (translate s).textSize = 10) ∧
    (∀ s : TextSymbol, s.textFill = none → (translate s).textFill = "#000") ∧
    (∀ s : TextSymbol, s.textOpacity = none → (translate s).textOpacity = 1) ∧
    (∀ s : TextSymbol, s.textHaloRadius = none → (translate s).textHaloRadius = 0) ∧
    (∀ s : TextSymbol, s.textFaceName = none → (translate s).textFaceName = "monospace") ∧
    (∀ s : TextSymbol, s.textWeight = none → (translate s).textWeight = "normal") ∧
    (∀ s : TextSymbol, s.textStyle = none → (translate s).textStyle = "normal") ∧
    (∀ s : TextSymbol, s.textHaloFill = none → (translate s).textHaloFill = "#ffffff") ∧
    (∀ s : TextSymbol, s.textHaloOpacity = none → (translate s).textHaloOpacity = 1) ∧
    (∀ s : TextSymbol, s.textWrapBefore = none → (translate s).textWrapBefore = false) ∧
    (∀ s : TextSymbol, s.textWrapCharacter = none →
      (translate s).textWrapCharacter = "\n") ∧
    (∀ s : TextSymbol, s.textLineSpacing = none → (translate s).textLineSpacing = 0) ∧
    (∀ s : TextSymbol, s.textDx = none → (translate s).textDx = 0) ∧
    (∀ s : TextSymbol, s.textDy = none → (translate s).textDy = 0) ∧
    (∀ s : TextSymbol, s.textHorizontalAlignment = none →
      (translate s).textHorizontalAlignment = "middle") ∧
    (∀ s : TextSymbol, s.textVerticalAlignment = none →
      (translate s).textVerticalAlignment = "middle") ∧
    (∀ s : TextSymbol, s.textAlign = none → (translate s).textAlign = "center") ∧
    translate { textName := "Hi" } =
      { textName := "Hi", textFaceName := "monospace", textWeight := "normal",
        textStyle := "normal", textSize := 10, textFont := none, textFill := "#000",
        textOpacity := 1, textHaloFill := "#ffffff", textHaloRadius := 0,
        textHaloOpacity := 1, textWrapWidth := none, textWrapBefore := false,
        textWrapCharacter := "\n", textLineSpacing := 0, textDx := 0, textDy := 0,
        textHorizontalAlignment := "middle", textVerticalAlignment := "middle",
        textAlign := "center" } :=
  ⟨fun s h => by simp [translate, getValueOrDefault, h],
   fun s h => by simp [translate, getValueOrDefault, h],
   fun s h => by simp [translate, getValueOrDefault, h],
   fun s h => by simp [translate, getValueOrDefault, h],
   fun s h => by simp [translate, getValueOrDefault, h],
   fun s h => by simp [translate, getValueOrDefault, h],
   fun s h => by simp [translate, getValueOrDefault, h],
   fun s h => by simp [translate, getValueOrDefault, h],
   fun s h => by simp [translate, getValueOrDefault, h],
   fun s h => by simp [translate, getValueOrDefault, h],
   fun s h => by simp [translate, getValueOrDefault, h],
   fun s h => by simp [translate, getValueOrDefault, h],
   fun s h => by simp [translate, getValueOrDefault, h],
   fun s h => by simp [translate, getValueOrDefault, h],
   fun s h => by simp [translate, getValueOrDefault, h],
   fun s h => by simp [translate, getValueOrDefault, h],
   fun s h => by simp [translate, getValueOrDefault, h],
   rfl⟩

/-- Witness for `translate_defaults`: the defaults of Example 3, produced
by applying the theorem at `{textName:'Hi'}`. -/
theorem translate_defaults_witness :
    (translate { textName := "Hi" }).textSize = 10 ∧
    (translate { textName := "Hi" }).textFill = "#000" ∧
    (translate { textName := "Hi" }).textOpacity = 1 ∧
    (translate { textName := "Hi" }).textHaloRadius = 0 :=
  ⟨translate_defaults.1 { textName := "Hi" } rfl,
   translate_defaults.2.1 { textName := "Hi" } rfl,
   translate_defaults.2.2.1 { textName := "Hi" } rfl,
   translate_defaults.2.2.2.1 { textName := "Hi" } rfl⟩

end Maptalks
